import Mathlib

/-!
Verification development for the `auto_douyin` video-upload service.

This file gives a shallow embedding, in Lean 4, of the pure data model and
the algorithmic parts of the repository:

* `src/video_uploader/utils/auto_tools.py`
  (`get_title_and_hashtags`, `generate_schedule_time_next_day`),
* `src/video_uploader/models/douyin.py` / `models/platforms.py`
  (`BatchUploadConfig`, `LoginRequest` field validation),
* `src/video_uploader/services/douyin_service.py`
  (`DouyinService.upload_video`, `DouyinService.batch_upload`),
* `src/video_uploader/services/platform_manager.py`
  (`PlatformManager._load_existing_accounts`, the Douyin adapter paths),
* `src/video_uploader/core/bilibili_uploader.py`
  (`BilibiliUploader.TID_MAP` and the upload-data construction).

Python strings are modelled as `List Char`; Python's arbitrary-precision
`int` as `Int`; code that can raise returns `Except String`.  Naive
`datetime` values are modelled by a calendar-free record (a day index plus
time-of-day fields): the `MINYEAR`/`MAXYEAR` bounds of the Python calendar
are idealized away, but the range validation that `datetime.replace`
performs on the `hour` argument is kept, because it is input-dependent.
Browser automation (playwright), the network, and wall-clock time are kept
abstract: drivers are oracles supplying the boolean outcomes the service
code branches on, and the filesystem is an oracle supplying existence and
read results.
-/

/-! ## Python string primitives (strings as `List Char`) -/

/-- Characters treated as whitespace by Python's `str.strip()` (ASCII part). -/
def pyIsSpace (c : Char) : Bool :=
  c == ' ' || c == '\t' || c == '\n' || c == '\r' ||
  c == Char.ofNat 11 || c == Char.ofNat 12

/-- Python `str.strip()`: drop leading and trailing whitespace. -/
def pyStrip (s : List Char) : List Char :=
  ((s.dropWhile pyIsSpace).reverse.dropWhile pyIsSpace).reverse

/-- Python `str.split(sep)` with a one-character separator: splits on every
occurrence, keeping empty pieces; `"".split(sep) == [""]`. -/
def pySplitOn (sep : Char) : List Char → List (List Char)
  | [] => [[]]
  | c :: cs =>
    let r := pySplitOn sep cs
    if c == sep then [] :: r
    else
      match r with
      | [] => [[c]]
      | t :: ts => (c :: t) :: ts

/-- Python `str.replace(pat, rep)` for a non-empty `pat`: left-to-right,
non-overlapping replacement of every occurrence.  Structured as bounded
recursion on the remaining length (each step consumes at least one
character of `s`, so fuel `s.length` is never exhausted). -/
def pyReplaceGo (pat rep : List Char) : List Char → Nat → List Char
  | s, 0 => s
  | [], _ + 1 => []
  | c :: cs, fuel + 1 =>
    if pat ≠ [] ∧ pat.isPrefixOf (c :: cs) then
      rep ++ pyReplaceGo pat rep ((c :: cs).drop pat.length) fuel
    else
      c :: pyReplaceGo pat rep cs fuel

/-- Python `str.replace(pat, rep)` for a non-empty `pat`. -/
def pyReplace (pat rep : List Char) (s : List Char) : List Char :=
  pyReplaceGo pat rep s s.length

/-- Python `str.rfind(c)`: index of the last occurrence, `-1` if absent. -/
def pyRFind (c : Char) (s : List Char) : Int :=
  match s.reverse.indexOf? c with
  | none => -1
  | some j => (s.length : Int) - 1 - j

/-- `pathlib.PurePath.name`: the final path component (POSIX separator;
paths without trailing separators, as produced by the callers here). -/
def pyPathName (s : List Char) : List Char :=
  (pySplitOn '/' s).getLastD s

/-- `pathlib.PurePath.stem`: the final component without its last suffix.
CPython: `i = name.rfind('.'); name[:i] if 0 < i < len(name) - 1 else name`. -/
def pyStem (s : List Char) : List Char :=
  let nm := pyPathName s
  let i := pyRFind '.' nm
  if 0 < i ∧ i < (nm.length : Int) - 1 then nm.take i.toNat else nm

/-! ## Filesystem oracle and `get_title_and_hashtags`
(`src/video_uploader/utils/auto_tools.py`, lines 14-63) -/

/-- Oracle for the filesystem operations `auto_tools.py` performs:
`os.path.exists` and reading a text file (which may fail). -/
structure FileSystem where
  pathExists : List Char → Bool
  readFile : List Char → Except Unit (List Char)

def mp4Ext : List Char := ".mp4".toList
def txtExt : List Char := ".txt".toList

/-- `auto_tools.get_title_and_hashtags(filename)`: derive a title and a tag
list from the sidecar `.txt` file (filename with `.mp4` replaced by `.txt`).
Mirrors the Python source line by line; the broad `except` around the file
read is the `.error` branch of the oracle. -/
def get_title_and_hashtags (fs : FileSystem) (filename : List Char) :
    List Char × List (List Char) :=
  let txt_filename := pyReplace mp4Ext txtExt filename
  if fs.pathExists txt_filename = false then
    (pyStem filename, [])
  else
    match fs.readFile txt_filename with
    | .error _ => (pyStem filename, [])
    | .ok content =>
      let lines := pySplitOn '\n' (pyStrip content)
      if 2 ≤ lines.length then
        let title := pyStrip (lines.getD 0 [])
        let hashtags_line := pyStrip (lines.getD 1 [])
        let hashtags :=
          ((pySplitOn ' ' (pyReplace ['#'] [] hashtags_line)).map pyStrip).filter
            (fun t => t ≠ [])
        (title, hashtags)
      else if lines.length = 1 then
        (pyStrip (lines.getD 0 []), [])
      else
        (pyStem filename, [])

example : pyStem "clip.mp4".toList = "clip".toList := by decide
example : pySplitOn '\n' (pyStrip "t\na\t b".toList) = ["t".toList, "a\t b".toList] := by decide

/-! ## Naive datetime model and `generate_schedule_time_next_day`
(`src/video_uploader/utils/auto_tools.py`, lines 66-112) -/

/-- A naive Python `datetime`, calendar-free: `day` is the date as a day
index (so `timedelta(days=d)` is `day + d`), with time-of-day fields. -/
structure PyDateTime where
  day : Int
  hour : Int
  minute : Int
  second : Int
  microsecond : Int
deriving DecidableEq, Repr

/-- `dt.replace(hour=h, minute=0, second=0, microsecond=0)`: the datetime
constructor validates the hour range and raises
`ValueError("hour must be in 0..23")` otherwise. -/
def datetimeReplaceHour (t : PyDateTime) (h : Int) : Except String PyDateTime :=
  if 0 ≤ h ∧ h ≤ 23 then
    .ok { t with hour := h, minute := 0, second := 0, microsecond := 0 }
  else
    .error "hour must be in 0..23"

/-- `dt + timedelta(days=d)` (idealized calendar: no year bounds). -/
def timedeltaAddDays (t : PyDateTime) (d : Int) : PyDateTime :=
  { t with day := t.day + d }

/-- The in-function default publish hours of `generate_schedule_time_next_day`. -/
def defaultDailyTimes : List Int := [6, 11, 14, 16, 22]

/-- A Python `for`-loop that appends one result per element and propagates
the first raised exception. -/
def exceptMapList {α β : Type} (g : α → Except String β) : List α → Except String (List β)
  | [] => .ok []
  | a :: as =>
    match g a with
    | .error e => .error e
    | .ok b =>
      match exceptMapList g as with
      | .error e => .error e
      | .ok bs => .ok (b :: bs)

/-- `range(n)` for a Python int `n` (empty when `n ≤ 0`). -/
def pyRange (n : Int) : List Nat := List.range n.toNat

/-- `auto_tools.generate_schedule_time_next_day(total_videos, videos_per_day,
daily_times, start_days)` evaluated at the current time `now`.  `daily_times`
is `Option`al (Python default `None` selects `defaultDailyTimes`). -/
def generate_schedule_time_next_day (now : PyDateTime) (total_videos : Int)
    (videos_per_day : Int) (daily_times : Option (List Int)) (start_days : Int) :
    Except String (List PyDateTime) :=
  if videos_per_day ≤ 0 then
    .error "每天发布视频数量必须大于0"
  else
    let dt := daily_times.getD defaultDailyTimes
    if (dt.length : Int) < videos_per_day then
      .error "每天发布视频数量不能超过可用时间点数量"
    else
      let v := videos_per_day.toNat
      exceptMapList (fun video_index =>
        let day_index : Int := ((video_index / v : Nat) : Int) + start_days + 1
        let daily_video_index := video_index % v
        match dt.get? daily_video_index with
        | none => .error "IndexError: list index out of range"
        | some hour =>
          match datetimeReplaceHour now hour with
          | .error e => .error e
          | .ok publish_time => .ok (timedeltaAddDays publish_time day_index))
        (pyRange total_videos)

/-- The current-time stand-in used for concrete evaluations. -/
def pyNow0 : PyDateTime := { day := 0, hour := 12, minute := 34, second := 56, microsecond := 7 }

example :
    generate_schedule_time_next_day pyNow0 3 2 (some [9, 15, 21]) 0 =
      .ok [⟨1, 9, 0, 0, 0⟩, ⟨1, 15, 0, 0, 0⟩, ⟨2, 9, 0, 0, 0⟩] := by rfl

/-! ## `BatchUploadConfig` validation
(`src/video_uploader/models/douyin.py` lines 76-98; the copy in
`models/platforms.py` lines 126-148 is textually identical) -/

/-- Whether an `Except` result is an exception. -/
def exceptIsError {ε α : Type} : Except ε α → Bool
  | .error _ => true
  | .ok _ => false

/-- Python `sorted` on a list of ints (ascending). -/
def pySorted (l : List Int) : List Int :=
  l.mergeSort (fun a b => decide (a ≤ b))

/-- The validated `BatchUploadConfig` pydantic model. -/
structure BatchUploadConfig where
  videos_per_day : Int
  daily_times : List Int
  start_days : Int
deriving DecidableEq, Repr

/-- `@field_validator("videos_per_day")`: reject non-positive counts. -/
def validate_videos_per_day (v : Int) : Except String Int :=
  if v ≤ 0 then .error "每天发布视频数量必须大于0" else .ok v

/-- `@field_validator("daily_times")`: reject an empty list, reject the first
hour outside `[0, 23]`, and store the list sorted ascending. -/
def validate_daily_times (ts : List Int) : Except String (List Int) :=
  if ts = [] then .error "每天发布时间不能为空"
  else
    match ts.find? (fun h => decide (h < 0) || decide (23 < h)) with
    | some h => .error ("时间点必须在0-23之间: " ++ toString h)
    | none => .ok (pySorted ts)

/-- Constructing `BatchUploadConfig(videos_per_day=v, daily_times=ts,
start_days=s)`: pydantic runs the field validators in declaration order. -/
def batchUploadConfigMk (v : Int) (ts : List Int) (s : Int) :
    Except String BatchUploadConfig :=
  match validate_videos_per_day v with
  | .error e => .error e
  | .ok v' =>
    match validate_daily_times ts with
    | .error e => .error e
    | .ok ts' => .ok { videos_per_day := v', daily_times := ts', start_days := s }

unseal List.merge List.mergeSort in
example : batchUploadConfigMk 1 [21, 9, 15] 0 = .ok ⟨1, [9, 15, 21], 0⟩ := by rfl

example : exceptIsError (batchUploadConfigMk 0 [9] 0) = true := by rfl
example : exceptIsError (batchUploadConfigMk 1 [] 0) = true := by rfl
example : exceptIsError (batchUploadConfigMk 1 [25] 0) = true := by rfl

/-! ## `DouyinService` (`src/video_uploader/services/douyin_service.py`)

The Playwright-driven `DouyinUploader` is abstracted as an oracle giving the
boolean results of `check_cookie()` and `upload_video(...)`; the side
effects the service triggers on the driver are recorded in an explicit
trace. -/

/-- `models/douyin.py` `VideoInfo` (validated fields only; path existence
was checked by pydantic on construction). -/
structure VideoInfo where
  video_path : List Char
  title : Option (List Char)
  tags : List (List Char)
  thumbnail_path : Option (List Char)
deriving DecidableEq, Repr

/-- `models/douyin.py` `UploadResponse` (the `upload_time` default-now field
is omitted: no claim mentions it). -/
structure UploadResponse where
  success : Bool
  message : String
  title : Option (List Char)
deriving DecidableEq, Repr

/-- Driver calls the service can trigger. -/
inductive DriverEffect
  | checkCookie
  | uploadVideo
deriving DecidableEq, Repr

/-- Oracle for one `DouyinUploader` instance: the outcome of
`check_cookie()` and, were it reached, of `upload_video(...)`. -/
structure Driver where
  cookieValid : Bool
  uploadOk : Bool
deriving DecidableEq, Repr

/-- Python truthiness of an `Optional[str]`: `None` and `""` are falsy. -/
def optStrFalsy (s : Option (List Char)) : Bool :=
  match s with
  | none => true
  | some t => t.isEmpty

/-- The title/tag completion at the top of `DouyinService.upload_video`:
missing (falsy) title or tags are filled from the sidecar file via
`get_title_and_hashtags`. -/
def resolveTitleTags (fs : FileSystem) (vi : VideoInfo) : VideoInfo :=
  if optStrFalsy vi.title || vi.tags.isEmpty then
    let auto := get_title_and_hashtags fs vi.video_path
    { vi with
      title := if optStrFalsy vi.title then some auto.1 else vi.title,
      tags := if vi.tags.isEmpty then auto.2 else vi.tags }
  else vi

/-- `DouyinService.upload_video(request)`: fill title/tags, create the
uploader, check the cookie (returning a re-login failure if invalid), then
upload.  Returns the response together with the trace of driver calls. -/
def serviceUploadVideo (fs : FileSystem) (d : Driver) (vi : VideoInfo)
    (publish_date : Option PyDateTime) : UploadResponse × List DriverEffect :=
  let vi' := resolveTitleTags fs vi
  if d.cookieValid = false then
    ({ success := false, message := "Cookie无效，请重新登录", title := none },
     [DriverEffect.checkCookie])
  else if d.uploadOk then
    ({ success := true, message := "视频上传成功", title := vi'.title },
     [DriverEffect.checkCookie, DriverEffect.uploadVideo])
  else
    ({ success := false, message := "视频上传失败", title := none },
     [DriverEffect.checkCookie, DriverEffect.uploadVideo])

/-- `models/douyin.py` `BatchUploadResponse`. -/
structure BatchUploadResponse where
  success : Bool
  message : String
  total_videos : Int
  success_count : Int
  results : List UploadResponse
deriving DecidableEq, Repr

/-- `DouyinService.batch_upload(request)`: reject when `videos_per_day`
exceeds the number of `daily_times`; otherwise generate the schedule with
`generate_schedule_time_next_day` and upload each video in order (the
`i`-th upload uses a fresh driver `drivers i`).  A raised exception is
caught by the surrounding `except` and becomes a failure response with no
results. -/
def serviceBatchUpload (fs : FileSystem) (drivers : Nat → Driver)
    (now : PyDateTime) (cfg : BatchUploadConfig) (video_list : List VideoInfo) :
    BatchUploadResponse × List DriverEffect :=
  if (cfg.daily_times.length : Int) < cfg.videos_per_day then
    ({ success := false, message := "每天发布视频数量不能超过可用时间点数量",
       total_videos := video_list.length, success_count := 0, results := [] }, [])
  else
    match generate_schedule_time_next_day now video_list.length cfg.videos_per_day
        (some cfg.daily_times) cfg.start_days with
    | .error e =>
      ({ success := false, message := "批量上传失败: " ++ e,
         total_videos := video_list.length, success_count := 0, results := [] }, [])
    | .ok publish_times =>
      let steps := video_list.enum.map (fun p =>
        serviceUploadVideo fs (drivers p.1) p.2 (publish_times.get? p.1))
      let results := steps.map Prod.fst
      let success_count : Int := (results.countP (fun r => r.success) : Nat)
      ({ success := true,
         message := "批量上传完成: " ++ toString success_count ++ "/" ++
           toString video_list.length ++ " 成功",
         total_videos := video_list.length, success_count := success_count,
         results := results },
       (steps.map Prod.snd).flatten)

/-! ## `PlatformManager` (`src/video_uploader/services/platform_manager.py`) -/

/-- `models/platforms.py` `BaseAccount` (subclasses only pin `platform`). -/
structure BaseAccount where
  name : List Char
  platform : List Char
  cookie_file : Option (List Char)
  is_logged_in : Bool
deriving DecidableEq, Repr

/-- `PlatformManager.supported_platforms`. -/
def supported_platforms : List (List Char) :=
  ["douyin".toList, "wechat_channel".toList, "xiaohongshu".toList]

/-- The account registry `self.accounts`, a Python dict keyed by
`f"{platform}_{name}"`, modelled with dict lookup semantics. -/
def AccountMap : Type := List (List Char × BaseAccount)

/-- Python `dict[key] = value`. -/
def dictSet (m : AccountMap) (k : List Char) (v : BaseAccount) : AccountMap :=
  (k, v) :: (m : List (List Char × BaseAccount)).filter (fun p => decide (p.1 ≠ k))

/-- Python `dict.get(key)`. -/
def dictGet (m : AccountMap) (k : List Char) : Option BaseAccount :=
  ((m : List (List Char × BaseAccount)).find? (fun p => decide (p.1 = k))).map Prod.snd

/-- `PlatformManager._create_account`: a fresh account object for each
supported platform, `None` otherwise. -/
def createAccount (platform account_name : List Char) : Option BaseAccount :=
  if platform = "douyin".toList ∨ platform = "wechat_channel".toList ∨
      platform = "xiaohongshu".toList then
    some { name := account_name, platform := platform, cookie_file := none,
           is_logged_in := false }
  else none

/-- `PlatformManager.add_account`: register under `f"{platform}_{name}"`
when the platform is supported; returns the new registry and the
success flag. -/
def addAccount (m : AccountMap) (acc : BaseAccount) : AccountMap × Bool :=
  if acc.platform ∈ supported_platforms then
    (dictSet m (acc.platform ++ '_' :: acc.name) acc, true)
  else (m, false)

/-- The cookie path attached by `_load_existing_accounts` for a stem
(`cookies/<stem>.json`). -/
def cookieFilePath (stem : List Char) : List Char :=
  "cookies/".toList ++ stem ++ ".json".toList

/-- One iteration of the `_load_existing_accounts` scan for a cookie-file
stem: split off the first supported platform that prefixes the name
(`filename.startswith(platform + "_")`), and register a logged-in account
carrying the cookie path.  An empty account name is falsy and skipped. -/
def processCookieFile (m : AccountMap) (stem : List Char) : AccountMap :=
  if '_' ∈ stem then
    match supported_platforms.find? (fun p => (p ++ ['_']).isPrefixOf stem) with
    | some platform =>
      let account_name := stem.drop (platform.length + 1)
      if account_name ≠ [] then
        match createAccount platform account_name with
        | some acc =>
          (addAccount m { acc with cookie_file := some (cookieFilePath stem),
                                   is_logged_in := true }).1
        | none => m
      else m
    | none => m
  else m

/-- `PlatformManager._load_existing_accounts`: scan the stems of the
`cookies/*.json` files (in directory order) into the account registry. -/
def loadExistingAccounts (stems : List (List Char)) : AccountMap :=
  stems.foldl processCookieFile []

/-! ### The Douyin adapter paths and the `DouYinUploader` name
(`platform_manager.py` lines 275-360)

The module binds, by its `import` statements, the names `DouyinUploader`,
`WechatChannelUploader` and `XiaohongshuUploader` (plus stdlib names); the
adapter bodies however look up `DouYinUploader`.  Name resolution is
modelled explicitly: looking up an unbound name raises `NameError`. -/

/-- Class names bound at module level in `platform_manager.py`. -/
def platformManagerModuleNames : List String :=
  ["DouyinUploader", "WechatChannelUploader", "XiaohongshuUploader",
   "PlatformManager", "BaseAccount", "LoginRequest", "UploadRequest"]

/-- Python name resolution in `platform_manager.py`: `NameError` for a
name the module never binds. -/
def resolveName (n : String) : Except String Unit :=
  if platformManagerModuleNames.contains n then .ok ()
  else .error ("name " ++ n ++ " is not defined")

/-- `PlatformManager._login_douyin`: builds a config, then instantiates
`DouYinUploader` and calls `login()` on it (`loginOutcome` is what that
call would return); the enclosing `try/except` turns any exception into
`False`. -/
def loginDouyinAdapter (loginOutcome : Bool) : Bool :=
  match (do
      let _ ← resolveName "DouYinUploader"
      pure loginOutcome : Except String Bool) with
  | .ok b => b
  | .error _ => false

/-- `PlatformManager._upload_douyin`: same shape as the login adapter
(`uploadOutcome` is what `upload_video(...)` would return). -/
def uploadDouyinAdapter (uploadOutcome : Bool) : Bool :=
  match (do
      let _ ← resolveName "DouYinUploader"
      pure uploadOutcome : Except String Bool) with
  | .ok b => b
  | .error _ => false

/-- `models/platforms.py` `LoginResponse` (account payload omitted). -/
structure PMLoginResponse where
  success : Bool
  message : String
deriving DecidableEq, Repr

/-- `PlatformManager.login` for a request with `platform="douyin"`:
look up or create-and-register the account, run the Douyin login adapter,
and report.  All exceptions are caught by the surrounding handler, so this
is a total function. -/
def pmLoginDouyin (m : AccountMap) (account_name : List Char)
    (loginOutcome : Bool) : PMLoginResponse :=
  let platform := "douyin".toList
  match dictGet m (platform ++ '_' :: account_name) with
  | some _ =>
    if loginDouyinAdapter loginOutcome then
      { success := true, message := "登录成功" }
    else
      { success := false, message := "登录失败" }
  | none =>
    match createAccount platform account_name with
    | none => { success := false, message := "不支持的平台: douyin" }
    | some _ =>
      if loginDouyinAdapter loginOutcome then
        { success := true, message := "登录成功" }
      else
        { success := false, message := "登录失败" }

/-- `PlatformManager.upload_video` for a request with `platform="douyin"`:
missing account and not-logged-in failures, then the Douyin upload
adapter.  Total for the same reason as `pmLoginDouyin`. -/
def pmUploadDouyin (m : AccountMap) (account_name : List Char)
    (uploadOutcome : Bool) : UploadResponse :=
  let platform := "douyin".toList
  match dictGet m (platform ++ '_' :: account_name) with
  | none => { success := false, message := "账号不存在", title := none }
  | some acc =>
    if acc.is_logged_in = false then
      { success := false, message := "账号未登录，请先登录", title := none }
    else if uploadDouyinAdapter uploadOutcome then
      { success := true, message := "视频上传成功", title := none }
    else
      { success := false, message := "视频上传失败", title := none }

/-! ## HTTP login-request validation (`api/routes.py` line 39)

`routes.py` imports `LoginRequest` from `models.platforms`, whose required
fields are `account_name` *and* `platform`; `models/douyin.py` defines a
`LoginRequest` whose only required field is `account_name` (the model the
route's docstring describes and `DouyinService.login` consumes).  A JSON
body is modelled by which of those fields it carries; pydantic reports the
missing required fields. -/

/-- The fields of a JSON body POSTed to `/api/v1/login`. -/
structure LoginBody where
  account_name : Option String
  platform : Option String
deriving DecidableEq, Repr

/-- Validation against `models.platforms.LoginRequest` (the model the
route is declared with): both `account_name` and `platform` are required. -/
def validateLoginRequestUnified (b : LoginBody) :
    Except (List String) (String × String) :=
  match b.account_name, b.platform with
  | some a, some p => .ok (a, p)
  | some _, none => .error ["platform"]
  | none, some _ => .error ["account_name"]
  | none, none => .error ["account_name", "platform"]

/-- Validation against `models.douyin.LoginRequest`: only `account_name`
is required. -/
def validateLoginRequestDouyin (b : LoginBody) : Except (List String) String :=
  match b.account_name with
  | some a => .ok a
  | none => .error ["account_name"]

/-! ## `BilibiliUploader` (`src/video_uploader/core/bilibili_uploader.py`) -/

/-- `BilibiliUploader.TID_MAP`: the fixed category → partition-id table. -/
def TID_MAP : List (String × Int) :=
  [("动画", 1), ("番剧", 13), ("国创", 167), ("音乐", 3), ("舞蹈", 129),
   ("游戏", 4), ("知识", 36), ("科技", 188), ("运动", 234), ("汽车", 223),
   ("生活", 160), ("美食", 211), ("动物圈", 217), ("鬼畜", 119), ("时尚", 155),
   ("娱乐", 5), ("影视", 181), ("纪录片", 177), ("电影", 23), ("电视剧", 11)]

/-- `TID_MAP.get(category, 160)`. -/
def tidLookup (category : String) : Int :=
  match TID_MAP.find? (fun p => decide (p.1 = category)) with
  | some p => p.2
  | none => 160

/-- The fields of `BilibiliVideoInfo` the upload-data construction reads.
`schedule_time` is represented by its Unix timestamp
(`int(schedule_time.timestamp())`), `None` meaning no schedule. -/
structure BilibiliVideoInfo where
  title : List Char
  tags : List (List Char)
  category : String
  schedule_time : Option Int
deriving DecidableEq, Repr

/-- The `biliup` `Data` object as filled by `upload_video` (the
description field, supplied-or-generated with a random emoji, is not
modelled: no claim constrains it). -/
structure BiliUploadData where
  copyright : Int
  title : List Char
  tid : Int
  tag : List (List Char)
  dtime : Int
deriving DecidableEq, Repr

/-- The upload-data construction in `BilibiliUploader.upload_video`
(lines 142-159): copyright 1, title truncated to 80 characters, partition
id from `TID_MAP` with default 160, first 10 tags, and the schedule
timestamp or 0. -/
def buildBiliUploadData (vi : BilibiliVideoInfo) : BiliUploadData :=
  { copyright := 1,
    title := vi.title.take 80,
    tid := tidLookup vi.category,
    tag := vi.tags.take 10,
    dtime :=
      match vi.schedule_time with
      | some ts => ts
      | none => 0 }

example : tidLookup "知识" = 36 := by rfl
example : tidLookup "不存在的分区" = 160 := by rfl

/-! ## Theorems -/

/-- Helper: a loop body that raises nowhere maps the whole list. -/
theorem exceptMapList_ok {α β : Type} (g : α → Except String β) (f : α → β)
    (xs : List α) (h : ∀ a ∈ xs, g a = .ok (f a)) :
    exceptMapList g xs = .ok (xs.map f) := by
  induction xs with
  | nil => rfl
  | cons a as ih =>
    simp only [exceptMapList, h a (List.mem_cons_self a as), List.map_cons,
      ih (fun b hb => h b (List.mem_cons_of_mem a hb))]

/-- The timestamp `generate_schedule_time_next_day` produces for video `i`. -/
def scheduleEntry (now : PyDateTime) (v : Nat) (s : Int) (dt : List Int)
    (i : Nat) : PyDateTime :=
  { day := now.day + (((i / v : Nat) : Int) + s + 1),
    hour := dt.getD (i % v) 0, minute := 0, second := 0, microsecond := 0 }

/-- Helper: with a positive per-day count not exceeding the hour list and
all hours in range, schedule generation succeeds and produces exactly the
`scheduleEntry` timestamps. -/
theorem generate_ok (now : PyDateTime) (n v s : Int) (dts? : Option (List Int))
    (hv : 0 < v) (hlen : v ≤ ((dts?.getD defaultDailyTimes).length : Int))
    (hrange : ∀ h ∈ dts?.getD defaultDailyTimes, 0 ≤ h ∧ h ≤ 23) :
    generate_schedule_time_next_day now n v dts? s =
      .ok ((List.range n.toNat).map
        (scheduleEntry now v.toNat s (dts?.getD defaultDailyTimes))) := by
  have hv0 : ¬ (v ≤ 0) := by omega
  have hlen0 : ¬ (((dts?.getD defaultDailyTimes).length : Int) < v) := by omega
  simp only [generate_schedule_time_next_day, if_neg hv0, if_neg hlen0, pyRange]
  apply exceptMapList_ok
  intro i _
  have hv' : 0 < v.toNat := by omega
  have hslot : i % v.toNat < (dts?.getD defaultDailyTimes).length := by
    have h1 : i % v.toNat < v.toNat := Nat.mod_lt _ hv'
    omega
  have hget : (dts?.getD defaultDailyTimes).get? (i % v.toNat) =
      some ((dts?.getD defaultDailyTimes).getD (i % v.toNat) 0) := by
    rw [List.get?_eq_getElem?, List.getElem?_eq_getElem hslot,
      List.getD_eq_getElem _ _ hslot]
  have hmem : (dts?.getD defaultDailyTimes).getD (i % v.toNat) 0 ∈
      dts?.getD defaultDailyTimes := by
    rw [List.getD_eq_getElem _ _ hslot]
    exact List.getElem_mem hslot
  have hok : datetimeReplaceHour now ((dts?.getD defaultDailyTimes).getD (i % v.toNat) 0) =
      .ok { now with hour := (dts?.getD defaultDailyTimes).getD (i % v.toNat) 0,
                     minute := 0, second := 0, microsecond := 0 } := by
    simp only [datetimeReplaceHour, if_pos (hrange _ hmem)]
  rw [hget]
  simp only [hok, timedeltaAddDays, scheduleEntry]

/-- C1 (amended): for `0 ≤ n`, `0 < v ≤ len(daily_times)` and every hour of
`daily_times` inside `[0, 23]`, `generate_schedule_time_next_day(n, v,
daily_times, s)` returns exactly `n` timestamps whose `i`-th element has
hour `daily_times[i mod v]`, zero minute/second/microsecond, and date
`s + 1 + i / v` days after the current day.  (The claim as frozen omits the
hour-range condition; see `C1_schedule_counterexample`.) -/
theorem C1_schedule_correct (now : PyDateTime) (n v s : Int) (dts : List Int)
    (hn : 0 ≤ n) (hv : 0 < v) (hlen : v ≤ (dts.length : Int))
    (hrange : ∀ h ∈ dts, 0 ≤ h ∧ h ≤ 23) :
    ∃ l, generate_schedule_time_next_day now n v (some dts) s = .ok l ∧
      (l.length : Int) = n ∧
      ∀ i, (hi : i < l.length) →
        l[i].hour = dts.getD (i % v.toNat) 0 ∧
        l[i].minute = 0 ∧ l[i].second = 0 ∧ l[i].microsecond = 0 ∧
        l[i].day = now.day + (s + 1 + ((i / v.toNat : Nat) : Int)) := by
  refine ⟨_, generate_ok now n v s (some dts) hv (by simpa) (by simpa), ?_, ?_⟩
  · simp only [List.length_map, List.length_range]
    omega
  · intro i hi
    have hi' : i < n.toNat := by
      simpa using hi
    simp only [List.getElem_map, List.getElem_range, scheduleEntry, Option.getD_some]
    refine ⟨trivial, trivial, trivial, trivial, by omega⟩

/-- C1 witness: the amended theorem applied at a concrete input
(3 videos, 2 per day, hours `[9, 15, 21]`, start offset 0). -/
theorem C1_schedule_correct_witness :
    ∃ l, generate_schedule_time_next_day pyNow0 3 2 (some [9, 15, 21]) 0 = .ok l ∧
      (l.length : Int) = 3 ∧
      ∀ i, (hi : i < l.length) →
        l[i].hour = [(9 : Int), 15, 21].getD (i % (2 : Int).toNat) 0 ∧
        l[i].minute = 0 ∧ l[i].second = 0 ∧ l[i].microsecond = 0 ∧
        l[i].day = pyNow0.day + (0 + 1 + ((i / (2 : Int).toNat : Nat) : Int)) :=
  C1_schedule_correct pyNow0 3 2 0 [9, 15, 21] (by norm_num) (by norm_num)
    (by norm_num) (by decide)

/-- C1 counterexample: with `daily_times = [25]` (and `n = v = 1`,
`s = 0`, so `0 < v ≤ len(daily_times)` holds), the function does not
return a 1-element list as the claim states: `datetime.replace`
raises `ValueError`. -/
theorem C1_schedule_counterexample :
    generate_schedule_time_next_day pyNow0 1 1 (some [25]) 0 =
      .error "hour must be in 0..23" := by rfl

/-- C2 (amended): provided every hour of the effective `daily_times` list
(the default `[6, 11, 14, 16, 22]` when the caller supplies none) lies in
`[0, 23]`, `generate_schedule_time_next_day` raises if and only if
`videos_per_day ≤ 0` or `videos_per_day > len(daily_times)`; for all
other such inputs it returns normally.  (The claim as frozen omits the
hour-range proviso; see `C2_error_iff_counterexample`.) -/
theorem C2_error_iff (now : PyDateTime) (n v s : Int) (dts? : Option (List Int))
    (hrange : ∀ h ∈ dts?.getD defaultDailyTimes, 0 ≤ h ∧ h ≤ 23) :
    exceptIsError (generate_schedule_time_next_day now n v dts? s) = true ↔
      v ≤ 0 ∨ ((dts?.getD defaultDailyTimes).length : Int) < v := by
  constructor
  · intro herr
    by_contra hc
    push_neg at hc
    rw [generate_ok now n v s dts? (by omega) (by omega) hrange] at herr
    simp [exceptIsError] at herr
  · intro hc
    by_cases hv : v ≤ 0
    · simp [generate_schedule_time_next_day, if_pos hv, exceptIsError]
    · have hlen : ((dts?.getD defaultDailyTimes).length : Int) < v := by tauto
      simp [generate_schedule_time_next_day, if_neg hv, if_pos hlen, exceptIsError]

/-- C2 witness: the amended theorem applied with the default hour list
(which is in range) and `videos_per_day = 6 > 5 = len(default)`. -/
theorem C2_error_iff_witness :
    exceptIsError (generate_schedule_time_next_day pyNow0 5 6 none 0) = true ↔
      (6 : Int) ≤ 0 ∨
        ((((none : Option (List Int)).getD defaultDailyTimes).length : Int) < 6) :=
  C2_error_iff pyNow0 5 6 0 none (by decide)

/-- C2 counterexample: with `daily_times = [25]`, `videos_per_day = 1` and
two videos, the function raises even though neither `videos_per_day ≤ 0`
nor `videos_per_day > len(daily_times)` holds, refuting the frozen
"if and only if / returns normally otherwise" claim. -/
theorem C2_error_iff_counterexample :
    exceptIsError (generate_schedule_time_next_day pyNow0 2 1 (some [25]) 0) = true ∧
      ¬ ((1 : Int) ≤ 0 ∨ ((([25] : List Int).length : Int) < 1)) :=
  ⟨by rfl, by decide⟩

/-- C3: `BatchUploadConfig` construction fails exactly when
`videos_per_day ≤ 0`, `daily_times` is empty, or some hour lies outside
`[0, 23]`; on success the stored `daily_times` is the input sorted
ascending (a sorted permutation of the input) and the other fields are
stored unchanged. -/
theorem C3_batch_config (v : Int) (ts : List Int) (s : Int) :
    (exceptIsError (batchUploadConfigMk v ts s) = true ↔
      v ≤ 0 ∨ ts = [] ∨ ∃ h ∈ ts, h < 0 ∨ 23 < h) ∧
    ∀ cfg, batchUploadConfigMk v ts s = .ok cfg →
      cfg.videos_per_day = v ∧ cfg.start_days = s ∧
      cfg.daily_times.Sorted (· ≤ ·) ∧ cfg.daily_times.Perm ts := by
  by_cases hv : v ≤ 0
  · constructor
    · simp [batchUploadConfigMk, validate_videos_per_day, if_pos hv, exceptIsError, hv]
    · intro cfg hcfg
      simp [batchUploadConfigMk, validate_videos_per_day, if_pos hv] at hcfg
  · by_cases hts : ts = []
    · constructor
      · simp [batchUploadConfigMk, validate_videos_per_day, if_neg hv,
          validate_daily_times, if_pos hts, exceptIsError, hts]
      · intro cfg hcfg
        simp [batchUploadConfigMk, validate_videos_per_day, if_neg hv,
          validate_daily_times, if_pos hts] at hcfg
    · cases hfind : ts.find? (fun h => decide (h < 0) || decide (23 < h)) with
      | some h =>
        have hmem : h ∈ ts := List.mem_of_find?_eq_some hfind
        have hbad : h < 0 ∨ 23 < h := by
          have := List.find?_some hfind
          simpa using this
        constructor
        · constructor
          · intro _
            exact Or.inr (Or.inr ⟨h, hmem, hbad⟩)
          · intro _
            simp [batchUploadConfigMk, validate_videos_per_day, if_neg hv,
              validate_daily_times, if_neg hts, hfind, exceptIsError]
        · intro cfg hcfg
          simp [batchUploadConfigMk, validate_videos_per_day, if_neg hv,
            validate_daily_times, if_neg hts, hfind] at hcfg
      | none =>
        have hgood : ∀ h ∈ ts, ¬ (h < 0 ∨ 23 < h) := by
          intro h hm
          have := List.find?_eq_none.mp hfind h hm
          simpa using this
        constructor
        · have hno : exceptIsError (batchUploadConfigMk v ts s) = false := by
            simp [batchUploadConfigMk, validate_videos_per_day, if_neg hv,
              validate_daily_times, if_neg hts, hfind, exceptIsError]
          rw [hno]
          simp only [Bool.false_eq_true, false_iff]
          push_neg
          refine ⟨by omega, hts, ?_⟩
          intro h hm
          have := hgood h hm
          push_neg at this
          omega
        · intro cfg hcfg
          simp only [batchUploadConfigMk, validate_videos_per_day, if_neg hv,
            validate_daily_times, if_neg hts, hfind, Except.ok.injEq] at hcfg
          subst hcfg
          refine ⟨rfl, rfl, ?_, ?_⟩
          · exact List.sorted_mergeSort' ts
          · exact List.mergeSort_perm ts _

unseal List.merge List.mergeSort

/-- C3 witness: for input hours `[21, 9, 15]` construction succeeds with
stored list `[9, 15, 21]`, which the theorem certifies as a sorted
permutation of the input. -/
theorem C3_batch_config_witness :
    (⟨1, [9, 15, 21], 0⟩ : BatchUploadConfig).daily_times.Sorted (· ≤ ·) ∧
    (⟨1, [9, 15, 21], 0⟩ : BatchUploadConfig).daily_times.Perm [21, 9, 15] :=
  ⟨(((C3_batch_config 1 [21, 9, 15] 0).2 ⟨1, [9, 15, 21], 0⟩ (by rfl)).2.2).1,
   (((C3_batch_config 1 [21, 9, 15] 0).2 ⟨1, [9, 15, 21], 0⟩ (by rfl)).2.2).2⟩

/-- C4 (amended): `get_title_and_hashtags` (a total function: it never
raises) returns the filename stem and no tags when the sidecar is absent
or unreadable; with at least two lines it returns line 1 trimmed and the
line-2 tokens obtained by removing `#`, splitting on spaces, *trimming
each token*, and discarding tokens that are empty after trimming; with
exactly one (non-empty) line it returns that line trimmed and no tags.
(The frozen claim omits the per-token trimming; see
`C4_title_hashtags_counterexample`.) -/
theorem C4_title_hashtags (fs : FileSystem) (filename : List Char) :
    (fs.pathExists (pyReplace mp4Ext txtExt filename) = false →
      get_title_and_hashtags fs filename = (pyStem filename, [])) ∧
    (∀ e, fs.pathExists (pyReplace mp4Ext txtExt filename) = true →
      fs.readFile (pyReplace mp4Ext txtExt filename) = .error e →
      get_title_and_hashtags fs filename = (pyStem filename, [])) ∧
    (∀ content, fs.pathExists (pyReplace mp4Ext txtExt filename) = true →
      fs.readFile (pyReplace mp4Ext txtExt filename) = .ok content →
      (2 ≤ (pySplitOn '\n' (pyStrip content)).length →
        get_title_and_hashtags fs filename =
          (pyStrip ((pySplitOn '\n' (pyStrip content)).getD 0 []),
           ((pySplitOn ' ' (pyReplace ['#'] []
               (pyStrip ((pySplitOn '\n' (pyStrip content)).getD 1 [])))).map
             pyStrip).filter (fun t => t ≠ []))) ∧
      ((pySplitOn '\n' (pyStrip content)).length = 1 →
        (pySplitOn '\n' (pyStrip content)).getD 0 [] ≠ [] →
        get_title_and_hashtags fs filename =
          (pyStrip ((pySplitOn '\n' (pyStrip content)).getD 0 []), []))) := by
  refine ⟨?_, ?_, ?_⟩
  · intro habs
    simp [get_title_and_hashtags, habs]
  · intro e hex hread
    simp [get_title_and_hashtags, hex, hread]
  · intro content hex hread
    constructor
    · intro hlines
      simp [get_title_and_hashtags, hex, hread, if_pos hlines]
    · intro hlines _
      have h2 : ¬ (2 ≤ (pySplitOn '\n' (pyStrip content)).length) := by omega
      simp [get_title_and_hashtags, hex, hread, if_neg h2, hlines]

/-- C4 witness: absent sidecar at a concrete input. -/
def fsAbsent : FileSystem :=
  { pathExists := fun _ => false, readFile := fun _ => .error () }

theorem C4_title_hashtags_witness :
    get_title_and_hashtags fsAbsent "clip.mp4".toList = ("clip".toList, []) :=
  (C4_title_hashtags fsAbsent "clip.mp4".toList).1 (by rfl)

/-- Filesystem whose sidecar file reads `"t\na\t b"` (line 2 holds a token
with an embedded-then-trailing tab once split on spaces). -/
def fsTabbed : FileSystem :=
  { pathExists := fun _ => true, readFile := fun _ => .ok ("t\na\t b".toList) }

/-- C4 counterexample: for sidecar content `"t\na\t b"`, the second line is
`"a\t b"`; the frozen claim's tokenization (remove `#`, split on spaces,
discard empty tokens) yields `["a\t", "b"]`, but the code strips each
token and returns `["a", "b"]`. -/
theorem C4_title_hashtags_counterexample :
    (pySplitOn '\n' (pyStrip ("t\na\t b".toList))) = ["t".toList, "a\t b".toList] ∧
    (get_title_and_hashtags fsTabbed "clip.mp4".toList).2 =
      ["a".toList, "b".toList] ∧
    ((pySplitOn ' ' (pyReplace ['#'] [] ("a\t b".toList))).filter
      (fun t => t ≠ [])) = ["a\t".toList, "b".toList] ∧
    (["a".toList, "b".toList] : List (List Char)) ≠ ["a\t".toList, "b".toList] := by
  refine ⟨by decide, by decide, by decide, by decide⟩

/-- C5: when the driver's cookie check reports invalid,
`DouyinService.upload_video` answers `success=false` with the re-login
message, and the driver's upload step is never invoked. -/
theorem C5_cookie_guard (fs : FileSystem) (d : Driver) (vi : VideoInfo)
    (pd : Option PyDateTime) (hcookie : d.cookieValid = false) :
    (serviceUploadVideo fs d vi pd).1.success = false ∧
    (serviceUploadVideo fs d vi pd).1.message = "Cookie无效，请重新登录" ∧
    DriverEffect.uploadVideo ∉ (serviceUploadVideo fs d vi pd).2 := by
  simp [serviceUploadVideo, hcookie]

/-- A concrete video record for witnesses. -/
def viSample : VideoInfo :=
  { video_path := "v.mp4".toList, title := some "t".toList,
    tags := ["a".toList], thumbnail_path := none }

/-- C5 witness: the theorem applied to a driver whose cookie check fails. -/
theorem C5_cookie_guard_witness :
    (serviceUploadVideo fsAbsent ⟨false, true⟩ viSample none).1.success = false ∧
    (serviceUploadVideo fsAbsent ⟨false, true⟩ viSample none).1.message =
      "Cookie无效，请重新登录" ∧
    DriverEffect.uploadVideo ∉ (serviceUploadVideo fsAbsent ⟨false, true⟩ viSample none).2 :=
  C5_cookie_guard fsAbsent ⟨false, true⟩ viSample none rfl

/-- C6: `DouyinService.batch_upload` with a (pydantic-validated) config:
when `videos_per_day` exceeds the number of `daily_times` it rejects
immediately with `success=false`, no results, zero success count and no
driver calls; otherwise it produces exactly one result per input video and
a success count equal to the number of successful results. -/
theorem C6_batch_upload (fs : FileSystem) (drivers : Nat → Driver)
    (now : PyDateTime) (cfg : BatchUploadConfig) (videos : List VideoInfo)
    (hv : 0 < cfg.videos_per_day)
    (hrange : ∀ h ∈ cfg.daily_times, 0 ≤ h ∧ h ≤ 23) :
    (((cfg.daily_times.length : Int) < cfg.videos_per_day) →
      (serviceBatchUpload fs drivers now cfg videos).1.success = false ∧
      (serviceBatchUpload fs drivers now cfg videos).1.results = [] ∧
      (serviceBatchUpload fs drivers now cfg videos).1.success_count = 0 ∧
      (serviceBatchUpload fs drivers now cfg videos).2 = []) ∧
    ((cfg.videos_per_day ≤ (cfg.daily_times.length : Int)) →
      (serviceBatchUpload fs drivers now cfg videos).1.results.length =
        videos.length ∧
      (serviceBatchUpload fs drivers now cfg videos).1.success_count =
        (((serviceBatchUpload fs drivers now cfg videos).1.results.countP
          (fun r => r.success) : Nat) : Int)) := by
  constructor
  · intro hgt
    simp [serviceBatchUpload, if_pos hgt]
  · intro hle
    have hgen := generate_ok now (videos.length : Int) cfg.videos_per_day
      cfg.start_days (some cfg.daily_times) hv (by simpa) (by simpa)
    have hnot : ¬ ((cfg.daily_times.length : Int) < cfg.videos_per_day) := by omega
    simp [serviceBatchUpload, if_neg hnot, hgen]

/-- C6 witness: the theorem applied to one video with a valid one-slot
config ( `videos_per_day = 1 ≤ 1 = len(daily_times)` ). -/
theorem C6_batch_upload_witness :
    (serviceBatchUpload fsAbsent (fun _ => ⟨true, true⟩) pyNow0 ⟨1, [9], 0⟩
      [viSample]).1.results.length = [viSample].length ∧
    (serviceBatchUpload fsAbsent (fun _ => ⟨true, true⟩) pyNow0 ⟨1, [9], 0⟩
      [viSample]).1.success_count =
      ((((serviceBatchUpload fsAbsent (fun _ => ⟨true, true⟩) pyNow0 ⟨1, [9], 0⟩
        [viSample]).1.results.countP (fun r => r.success)) : Nat) : Int) :=
  (C6_batch_upload fsAbsent (fun _ => ⟨true, true⟩) pyNow0 ⟨1, [9], 0⟩ [viSample]
    (by norm_num) (by decide)).2 (by norm_num)

/-- Helper: a list cannot be a prefix of a list with a different head. -/
theorem not_prefixOf_of_head_ne (a b : Char) (as bs : List Char) (hab : a ≠ b) :
    (a :: as).isPrefixOf (b :: bs) = false := by
  rw [Bool.eq_false_iff]
  intro hcontra
  have hpre := List.isPrefixOf_iff_prefix.mp hcontra
  rw [List.cons_prefix_cons] at hpre
  exact hab hpre.1

/-- Helper: the platform-prefix scan of `_load_existing_accounts` resolves
a stem of the form `platform + "_" + name` to exactly that platform. -/
theorem find?_platform (p name : List Char) (hp : p ∈ supported_platforms) :
    supported_platforms.find?
      (fun q => (q ++ ['_']).isPrefixOf (p ++ '_' :: name)) = some p := by
  have happ : ∀ q : List Char, (q ++ ['_']).isPrefixOf (q ++ '_' :: name) = true := by
    intro q
    apply List.isPrefixOf_iff_prefix.mpr
    rw [show q ++ '_' :: name = (q ++ ['_']) ++ name by simp]
    exact List.prefix_append _ _
  have hdl : "douyin".toList = 'd' :: "ouyin".toList := by decide
  have hwl : "wechat_channel".toList = 'w' :: "echat_channel".toList := by decide
  have hxl : "xiaohongshu".toList = 'x' :: "iaohongshu".toList := by decide
  have hdw : ("douyin".toList ++ ['_']).isPrefixOf
      ("wechat_channel".toList ++ '_' :: name) = false := by
    rw [hdl, hwl, List.cons_append, List.cons_append]
    exact not_prefixOf_of_head_ne _ _ _ _ (by decide)
  have hdx : ("douyin".toList ++ ['_']).isPrefixOf
      ("xiaohongshu".toList ++ '_' :: name) = false := by
    rw [hdl, hxl, List.cons_append, List.cons_append]
    exact not_prefixOf_of_head_ne _ _ _ _ (by decide)
  have hwx : ("wechat_channel".toList ++ ['_']).isPrefixOf
      ("xiaohongshu".toList ++ '_' :: name) = false := by
    rw [hwl, hxl, List.cons_append, List.cons_append]
    exact not_prefixOf_of_head_ne _ _ _ _ (by decide)
  have hsup : supported_platforms =
      ["douyin".toList, "wechat_channel".toList, "xiaohongshu".toList] := rfl
  rw [hsup] at hp
  rw [hsup]
  rcases List.mem_cons.mp hp with rfl | hp'
  · simp only [List.find?, happ]
  · rcases List.mem_cons.mp hp' with rfl | hp''
    · simp only [List.find?, happ, hdw]
    · rcases List.mem_cons.mp hp'' with rfl | hfalse
      · simp only [List.find?, happ, hdx, hwx]
      · cases hfalse

/-- The account `_load_existing_accounts` registers for a stem
`platform + "_" + name`. -/
def discoveredAccount (p name : List Char) : BaseAccount :=
  { name := name, platform := p,
    cookie_file := some (cookieFilePath (p ++ '_' :: name)), is_logged_in := true }

/-- Helper: membership in `supported_platforms` as a plain disjunction. -/
theorem mem_supported_iff (p : List Char) :
    p ∈ supported_platforms ↔
      p = "douyin".toList ∨ p = "wechat_channel".toList ∨ p = "xiaohongshu".toList := by
  simp [supported_platforms]

/-- Helper: `_create_account` succeeds on every supported platform. -/
theorem createAccount_supported (p name : List Char) (hp : p ∈ supported_platforms) :
    createAccount p name =
      some { name := name, platform := p, cookie_file := none,
             is_logged_in := false } := by
  rcases (mem_supported_iff p).mp hp with rfl | rfl | rfl <;> simp [createAccount]

/-- Helper: processing its own stem registers the discovered account. -/
theorem processCookieFile_self (m : AccountMap) (p name : List Char)
    (hp : p ∈ supported_platforms) (hname : name ≠ []) :
    dictGet (processCookieFile m (p ++ '_' :: name)) (p ++ '_' :: name) =
      some (discoveredAccount p name) := by
  have hus : '_' ∈ p ++ '_' :: name := by simp
  have hdrop : (p ++ '_' :: name).drop (p.length + 1) = name := by
    rw [show p ++ '_' :: name = (p ++ ['_']) ++ name by simp]
    rw [show p.length + 1 = (p ++ ['_']).length by simp]
    exact List.drop_left _ _
  rw [processCookieFile, if_pos hus, find?_platform p name hp]
  simp only [hdrop, hname, ne_eq, not_false_eq_true, if_true,
    createAccount_supported p name hp]
  simp only [addAccount, if_pos hp]
  simp [dictGet, dictSet, discoveredAccount]

/-- Helper: `find?` is unchanged by filtering with a predicate that is
implied by the search predicate. -/
theorem find?_filter_of_imp {α : Type} (l : List α) (p q : α → Bool)
    (himp : ∀ x, p x = true → q x = true) :
    (l.filter q).find? p = l.find? p := by
  induction l with
  | nil => rfl
  | cons a as ih =>
    by_cases hq : q a = true
    · rw [List.filter_cons_of_pos hq]
      by_cases hp : p a = true
      · rw [List.find?_cons_of_pos _ hp, List.find?_cons_of_pos _ hp]
      · rw [List.find?_cons_of_neg _ (by simp [hp]), List.find?_cons_of_neg _ (by simp [hp]), ih]
    · have hp : ¬ p a = true := fun hc => hq (himp a hc)
      rw [List.filter_cons_of_neg (by simp [hq]), List.find?_cons_of_neg _ hp, ih]

/-- Helper: processing a stem different from `k` leaves the registry entry
at `k` unchanged (the only key a stem can register is the stem itself). -/
theorem processCookieFile_preserve (m : AccountMap) (stem k : List Char)
    (hne : stem ≠ k) :
    dictGet (processCookieFile m stem) k = dictGet m k := by
  rw [processCookieFile]
  by_cases hus : '_' ∈ stem
  · rw [if_pos hus]
    cases hfind : supported_platforms.find?
        (fun q => (q ++ ['_']).isPrefixOf stem) with
    | none => rfl
    | some platform =>
      have hpre : (platform ++ ['_']).isPrefixOf stem = true := by
        have := List.find?_some hfind
        simpa using this
      obtain ⟨t, ht⟩ := List.isPrefixOf_iff_prefix.mp hpre
      have hdrop : stem.drop (platform.length + 1) = t := by
        rw [← ht, show platform.length + 1 = (platform ++ ['_']).length by simp]
        exact List.drop_left _ _
      have hstem : platform ++ '_' :: stem.drop (platform.length + 1) = stem := by
        rw [hdrop, ← ht]
        simp
      have hplat : platform ∈ supported_platforms :=
        List.mem_of_find?_eq_some hfind
      by_cases hemp : stem.drop (platform.length + 1) = []
      · simp only [hemp, ne_eq, not_true_eq_false, if_false]
      · simp only [hemp, ne_eq, not_false_eq_true, if_true,
          createAccount_supported _ _ hplat]
        simp only [addAccount, if_pos hplat]
        simp only [dictGet, dictSet]
        rw [List.find?_cons_of_neg _ (by simp [hstem, fun hc => hne hc]),
          find?_filter_of_imp]
        intro x hx
        simp only [decide_eq_true_eq] at hx ⊢
        rw [hx, hstem]
        exact fun hc => hne hc.symm
  · rw [if_neg hus]

/-- Helper: once a platform-prefixed stem is in the scanned list, the final
registry maps it to its discovered account. -/
theorem loadAccounts_mem (p name : List Char) (hp : p ∈ supported_platforms)
    (hname : name ≠ []) :
    ∀ (stems : List (List Char)) (m : AccountMap),
      ((p ++ '_' :: name) ∈ stems ∨
        dictGet m (p ++ '_' :: name) = some (discoveredAccount p name)) →
      dictGet (stems.foldl processCookieFile m) (p ++ '_' :: name) =
        some (discoveredAccount p name) := by
  intro stems
  induction stems with
  | nil =>
    intro m hm
    rcases hm with hmem | hget
    · cases hmem
    · simpa using hget
  | cons st sts ih =>
    intro m hm
    simp only [List.foldl_cons]
    apply ih
    by_cases hst : st = p ++ '_' :: name
    · subst hst
      exact Or.inr (processCookieFile_self m p name hp hname)
    · rcases hm with hmem | hget
      · rcases List.mem_cons.mp hmem with heq | hmem'
        · exact absurd heq.symm hst
        · exact Or.inl hmem'
      · exact Or.inr ((processCookieFile_preserve m st _ hst).trans hget)

/-- C7: account auto-discovery.  Every scanned cookie-file stem of the form
`platform + "_" + name` (platform among the three supported ones, name
non-empty) ends up registered under key `platform + "_" + name` as a
logged-in account carrying the cookie path; and a stem that no supported
platform prefixes registers nothing. -/
theorem C7_account_discovery (stems : List (List Char)) (p name : List Char)
    (hp : p ∈ supported_platforms) (hname : name ≠ [])
    (hmem : (p ++ '_' :: name) ∈ stems) :
    (dictGet (loadExistingAccounts stems) (p ++ '_' :: name) =
      some (discoveredAccount p name)) ∧
    ∀ (m : AccountMap) (stem : List Char),
      (∀ q ∈ supported_platforms, (q ++ ['_']).isPrefixOf stem = false) →
      processCookieFile m stem = m := by
  constructor
  · exact loadAccounts_mem p name hp hname stems [] (Or.inl hmem)
  · intro m stem hq
    rw [processCookieFile]
    by_cases hus : '_' ∈ stem
    · rw [if_pos hus]
      have hnone : supported_platforms.find?
          (fun q => (q ++ ['_']).isPrefixOf stem) = none := by
        apply List.find?_eq_none.mpr
        intro q hqmem
        rw [hq q hqmem]
        exact Bool.false_ne_true
      rw [hnone]
    · rw [if_neg hus]

/-- C7 witness: the spec's example directory
`{douyin_alice.json, wechat_channel_bob.json, unknown_carol.json}`:
`alice` is registered under `douyin` as logged-in with her cookie path,
and the unrecognized-platform stem registers nothing. -/
theorem C7_account_discovery_witness :
    (dictGet (loadExistingAccounts
        ["douyin_alice".toList, "wechat_channel_bob".toList, "unknown_carol".toList])
      ("douyin".toList ++ '_' :: "alice".toList) =
      some (discoveredAccount "douyin".toList "alice".toList)) ∧
    processCookieFile [] "unknown_carol".toList = [] := by
  have h := C7_account_discovery
    ["douyin_alice".toList, "wechat_channel_bob".toList, "unknown_carol".toList]
    ("douyin".toList) ("alice".toList) (by decide) (by decide) (by decide)
  exact ⟨h.1, h.2 [] ("unknown_carol".toList) (by decide)⟩

/-- Helper: finding by key in an association list with distinct keys
returns the member pair. -/
theorem find?_eq_of_mem_of_nodup (l : List (String × Int)) (k : String) (v : Int)
    (hnd : (l.map Prod.fst).Nodup) (hm : (k, v) ∈ l) :
    l.find? (fun p => decide (p.1 = k)) = some (k, v) := by
  induction l with
  | nil => cases hm
  | cons a as ih =>
    rcases List.mem_cons.mp hm with rfl | hm'
    · exact List.find?_cons_of_pos _ (by simp)
    · have hka : ¬ a.1 = k := by
        intro he
        have : k ∈ as.map Prod.fst := by
          exact List.mem_map.mpr ⟨(k, v), hm', rfl⟩
        rw [List.map_cons, List.nodup_cons] at hnd
        exact hnd.1 (he ▸ this)
      rw [List.find?_cons_of_neg _ (by simp [hka]),
        ih (by rw [List.map_cons, List.nodup_cons] at hnd; exact hnd.2) hm']

/-- C8: the Bilibili upload-data construction: copyright fixed to 1, title
truncated to its first 80 characters, tags to the first 10, partition id
taken from the 20-entry `TID_MAP` (whose keys are distinct) with default
160 for an unrecognized category (`"知识"` maps to 36), and publish time
the schedule's Unix timestamp, or 0 when no schedule was given. -/
theorem C8_bili_upload_data (vi : BilibiliVideoInfo) :
    (buildBiliUploadData vi).copyright = 1 ∧
    (buildBiliUploadData vi).title = vi.title.take 80 ∧
    (buildBiliUploadData vi).tag = vi.tags.take 10 ∧
    (∀ tid, (vi.category, tid) ∈ TID_MAP → (buildBiliUploadData vi).tid = tid) ∧
    ((∀ tid, (vi.category, tid) ∉ TID_MAP) → (buildBiliUploadData vi).tid = 160) ∧
    (buildBiliUploadData vi).dtime =
      (match vi.schedule_time with | some ts => ts | none => 0) ∧
    ("知识", (36 : Int)) ∈ TID_MAP := by
  refine ⟨rfl, rfl, rfl, ?_, ?_, rfl, by decide⟩
  · intro tid hmem
    have hfind := find?_eq_of_mem_of_nodup TID_MAP vi.category tid (by decide) hmem
    simp [buildBiliUploadData, tidLookup, hfind]
  · intro hno
    have hnone : TID_MAP.find? (fun p => decide (p.1 = vi.category)) = none := by
      apply List.find?_eq_none.mpr
      intro p hp hdec
      have hp1 : p.1 = vi.category := by simpa using hdec
      exact hno p.2 (by rw [← hp1]; exact hp)
    simp [buildBiliUploadData, tidLookup, hnone]

/-- C8 witness: the theorem applied to a concrete `"知识"` video with no
schedule, giving partition id 36. -/
theorem C8_bili_upload_data_witness :
    (buildBiliUploadData
      { title := "t".toList, tags := [], category := "知识",
        schedule_time := none }).tid = 36 :=
  (C8_bili_upload_data
    { title := "t".toList, tags := [], category := "知识",
      schedule_time := none }).2.2.2.1 36 (by decide)

/-- C9: the `/api/v1/login` route validates its body against
`models.platforms.LoginRequest`, which also requires a `platform` field,
so the body `{"account_name": "test_account"}` is rejected with a
validation error (and never reaches `DouyinService.login`), although the
`models.douyin.LoginRequest` the route documents and the service consumes
accepts it.  This certifies the divergence behind the code-bug verdict. -/
theorem C9_login_request_validation :
    validateLoginRequestUnified
      { account_name := some "test_account", platform := none } =
      .error ["platform"] ∧
    validateLoginRequestDouyin
      { account_name := some "test_account", platform := none } =
      .ok "test_account" :=
  ⟨rfl, rfl⟩

/-- C10: every Douyin login or upload routed through the Platform Manager
returns `success=false` (and, the model being a total function, raises
nothing): the adapters look up the unbound name `DouYinUploader`, the
resulting `NameError` is caught, and the handlers report failure —
regardless of the registry contents, the account, or what the real
uploader would have answered. -/
theorem C10_pm_douyin_always_fails (m : AccountMap) (account_name : List Char)
    (loginOutcome uploadOutcome : Bool) :
    (pmLoginDouyin m account_name loginOutcome).success = false ∧
    (pmUploadDouyin m account_name uploadOutcome).success = false := by
  have hl : loginDouyinAdapter loginOutcome = false := rfl
  have hu : uploadDouyinAdapter uploadOutcome = false := rfl
  constructor
  · rw [pmLoginDouyin]
    cases dictGet m ("douyin".toList ++ '_' :: account_name) with
    | some a => simp [hl]
    | none => simp [createAccount, hl]
  · rw [pmUploadDouyin]
    cases dictGet m ("douyin".toList ++ '_' :: account_name) with
    | none => rfl
    | some acc =>
      by_cases hlog : acc.is_logged_in
      · simp [hlog, hu]
      · simp [hlog]
